import Mathlib

/-!
Verification of the ephys-sorting-manual-curation upload scripts.

Python strings are modelled as `List Char`; the external tools (git, the
aws CLI, boto3 clients, the CodeOcean client, the system clock) are passed
in as explicit inputs or function parameters, so every definition here is a
pure, executable translation of the corresponding source function in
`upload_scripts/upload_utils.py` and the entry scripts.
-/

/-- Convert a Lean string literal to the `List Char` representation used for
Python strings throughout this development. -/
def chars (s : String) : List Char := s.toList

/-- Python whitespace class (the characters matched by the regex class used in
`re`, restricted to ASCII): space, tab, newline, carriage return, vertical
tab, form feed. -/
def isPySpace (c : Char) : Bool :=
  c == ' ' || c == '\t' || c == '\n' || c == '\r' ||
    c == Char.ofNat 11 || c == Char.ofNat 12

/-- Characters matched by the character class of the commit-line pattern in
`get_list_of_new_files_to_upload` (word characters or a dash, ASCII model). -/
def isWordOrDashChar (c : Char) : Bool :=
  c.isAlphanum || c == '_' || c == '-'

/-- Recursion worker for `pyReplace`; the fuel is an upper bound on the number
of characters still to scan, so it is structural and computable by the kernel.
Each step consumes at least one character of the input. -/
def pyReplaceFuel (old new : List Char) : Nat → List Char → List Char
  | _, [] => []
  | 0, s => s
  | Nat.succ fuel, c :: rest =>
    if old ≠ [] ∧ old.isPrefixOf (c :: rest) then
      new ++ pyReplaceFuel old new fuel (rest.drop (old.length - 1))
    else
      c :: pyReplaceFuel old new fuel rest

/-- Python `str.replace(old, new)`: replace every non-overlapping occurrence
of `old` by `new`, scanning left to right.  The sources only call it with a
nonempty `old`. -/
def pyReplace (old new s : List Char) : List Char :=
  pyReplaceFuel old new s.length s

/-- `pathlib`'s `stem` on a file name: the name with its final extension
removed; a name whose only dot is leading or trailing is returned unchanged. -/
def pyStem (name : List Char) : List Char :=
  let ext := name.reverse.takeWhile (fun c => c != '.')
  if ext.length ≠ 0 ∧ ext.length < name.length - 1 then
    name.take (name.length - 1 - ext.length)
  else name

/-- Python `str.find`: index of the first occurrence of `needle`, `-1` when
there is none. -/
def pyFind (needle : List Char) : List Char → Int
  | [] => if needle.isPrefixOf ([] : List Char) then 0 else -1
  | c :: rest =>
    if needle.isPrefixOf (c :: rest) then 0
    else
      let r := pyFind needle rest
      if r < 0 then -1 else r + 1

/-- Python's substring operator (`needle in hay`): a first occurrence exists. -/
def pyContains (needle hay : List Char) : Bool :=
  decide (0 ≤ pyFind needle hay)

/-- Python slicing `s[i:]` with an `Int` start index (a negative index counts
from the end, clamped at the start of the string). -/
def pySliceFrom (s : List Char) (i : Int) : List Char :=
  if 0 ≤ i then s.drop i.toNat else s.drop ((s.length : Int) + i).toNat

/-- Python `str.split(sep)` for a one-character separator: consecutive
separators yield empty segments and the result is never empty. -/
def pySplitOn (sep : Char) : List Char → List (List Char)
  | [] => [[]]
  | c :: rest =>
    if c == sep then [] :: pySplitOn sep rest
    else
      match pySplitOn sep rest with
      | [] => [[c]]
      | seg :: segs => (c :: seg) :: segs

/-- Join path segments with the POSIX separator (`Path` rendering of a
relative path given by its segments). -/
def joinPath (segs : List (List Char)) : List Char :=
  List.intercalate (chars "/") segs

/-- Python `dict.get(key, default)` over an association list. -/
def dictGetD (m : List (List Char × List Char)) (k d : List Char) : List Char :=
  match m.find? (fun kv => kv.1 == k) with
  | some kv => kv.2
  | none => d

/-- The commit-line pattern of `get_list_of_new_files_to_upload`: one status
letter `A` or `M`, then at least one whitespace character, then a nonempty
captured run of word-or-dash characters, then a slash.  Returns the captured
top-level folder name.  The whitespace and folder character classes are
disjoint, so greedy scanning is equivalent to the backtracking regex. -/
def matchCommitPattern (line : List Char) : Option (List Char) :=
  match line with
  | [] => none
  | c :: rest =>
    if c == 'A' || c == 'M' then
      let ws := rest.takeWhile isPySpace
      let afterWs := rest.dropWhile isPySpace
      let root := afterWs.takeWhile isWordOrDashChar
      let afterRoot := afterWs.dropWhile isWordOrDashChar
      if ws ≠ [] ∧ root ≠ [] ∧ afterRoot.head? = some '/' then some root
      else none
    else none

/-- Ten characters of the form `DDDD-DD-DD` (the date component of the fixed
raw-data naming pattern). -/
def isDateChars : List Char → Bool
  | [y1, y2, y3, y4, d1, m1, m2, d2, a1, a2] =>
    y1.isDigit && y2.isDigit && y3.isDigit && y4.isDigit && d1 == '-' &&
      m1.isDigit && m2.isDigit && d2 == '-' && a1.isDigit && a2.isDigit
  | _ => false

/-- Eight characters of the form `DD-DD-DD` (the time component of the fixed
raw-data naming pattern). -/
def isTimeChars : List Char → Bool
  | [a1, a2, d1, b1, b2, d2, c1, c2] =>
    a1.isDigit && a2.isDigit && d1 == '-' && b1.isDigit && b2.isDigit &&
      d2 == '-' && c1.isDigit && c2.isDigit
  | _ => false

/-- The remainder of a raw-data name after the second captured group: exactly
a date, an underscore and a time, reaching the end of the name. -/
def matchDateTimeSuffix (s : List Char) : Bool :=
  isDateChars (s.take 10) &&
    (match s.drop 10 with
     | '_' :: t => isTimeChars t
     | _ => false)

/-- One lazy group of the raw-data pattern: the shortest nonempty,
newline-free group `g` such that the input is `g`, an underscore, and a
remainder accepted by `k`; returns the group and that remainder.  This is the
backtracking semantics of a lazy one-or-more wildcard followed by an
underscore. -/
def lazySplit (k : List Char → Bool) : List Char → Option (List Char × List Char)
  | [] => none
  | c :: rest =>
    if c == '\n' then none
    else if rest.head? = some '_' ∧ k rest.tail then
      some ([c], rest.tail)
    else
      match lazySplit k rest with
      | some (g, r2) => some (c :: g, r2)
      | none => none

/-- Modelled from the spec: the fixed raw-data naming pattern
`<platform>_<subject-id>_<date>_<time>` of the external schema library
(`DataRegex.RAW`), matched from the start of the folder name with two lazy
capture groups; returns the platform and subject-id captures on success. -/
def dataRegexRawMatch (name : List Char) : Option (List Char × List Char) :=
  match lazySplit (fun r1 => (lazySplit matchDateTimeSuffix r1).isSome) name with
  | none => none
  | some (g1, r1) =>
    match lazySplit matchDateTimeSuffix r1 with
    | some (g2, _) => some (g1, g2)
    | none => none

/-- A JSON value, as built by the scripts before serialization with
`json.dumps` (only strings, arrays and objects occur in the sources; object
fields keep their insertion order, as Python dicts do). -/
inductive Json where
  | str (s : List Char)
  | arr (elems : List Json)
  | obj (fields : List (List Char × Json))

/-- String-content escaping of `json.dumps` for the characters that need it
in the values the scripts build. -/
def jsonEscape : List Char → List Char
  | [] => []
  | c :: rest =>
    if c == '"' || c == '\\' then '\\' :: c :: jsonEscape rest
    else c :: jsonEscape rest

mutual

/-- Python `json.dumps` with its default separators. -/
def jsonDumps : Json → List Char
  | .str s => '"' :: (jsonEscape s ++ ['"'])
  | .arr elems => '[' :: (jsonDumpsElems elems ++ [']'])
  | .obj fields => Char.ofNat 123 :: (jsonDumpsFields fields ++ [Char.ofNat 125])

/-- Comma-separated rendering of a JSON array's elements. -/
def jsonDumpsElems : List Json → List Char
  | [] => []
  | [j] => jsonDumps j
  | j :: rest => jsonDumps j ++ ',' :: ' ' :: jsonDumpsElems rest

/-- Comma-separated rendering of a JSON object's fields. -/
def jsonDumpsFields : List (List Char × Json) → List Char
  | [] => []
  | [(k, v)] => '"' :: (jsonEscape k ++ '"' :: ':' :: ' ' :: jsonDumps v)
  | (k, v) :: rest =>
      '"' :: (jsonEscape k ++ '"' :: ':' :: ' ' :: jsonDumps v) ++
        ',' :: ' ' :: jsonDumpsFields rest

end

/-- A Python `datetime`, abstracted to the two renderings the scripts use of
it: the date part (`YYYY-MM-DD` style) and the time part (`HH-MM-SS` style)
that the external `build_data_name` helper appends to a label. -/
structure PyDatetime where
  dateStr : List Char
  timeStr : List Char
deriving DecidableEq

/-- Modelled from the spec: a platform of the external schema library,
identified by its abbreviation (the folder-naming code, the only part of it
the scripts read). -/
structure Platform where
  abbreviation : List Char
deriving DecidableEq

/-- Modelled from the spec: the external library's lookup of a platform from
its abbreviation, used by the Metadata Builder. -/
def Platform.from_abbreviation (a : List Char) : Platform := ⟨a⟩

/-- Modelled from the spec: the known platform-abbreviation vocabulary (the
keys of the external schema library's abbreviation map, used by the delta-mode
Asset Locator to recognize top-level data folders). -/
def platformAbbreviations : List (List Char) :=
  [chars "behavior", chars "behavior-videos", chars "confocal",
   chars "ecephys", chars "exaspim", chars "fip", chars "hcr", chars "hsfp",
   chars "isi", chars "merfish", chars "mesospim", chars "mri",
   chars "multiplane-ophys", chars "single-plane-ophys", chars "slap2",
   chars "smartspim"]

/-- The modality constants of the external schema library used by the
scripts. -/
inductive Modality where
  | ECEPHYS
deriving DecidableEq

/-- The organization constants of the external schema library used by the
scripts. -/
inductive Organization where
  | AIND
  | AI
deriving DecidableEq

/-- A named investigator record of the external schema library. -/
structure PIDName where
  name : List Char
deriving DecidableEq

/-- A funding-source record of the external schema library. -/
structure Funding where
  funder : Organization
deriving DecidableEq

/-- The data-level constants of the external schema library used by the
scripts. -/
inductive DataLevel where
  | DERIVED
deriving DecidableEq

/-- The string value of a data level (`DataLevel.DERIVED.value` in the
sources). -/
def DataLevel.value : DataLevel → List Char
  | .DERIVED => chars "derived"

/-- Modelled from the spec: the external `build_data_name` helper, producing
the timestamp-suffixed label `<label>_<creation-date>_<creation-time>`. -/
def build_data_name (label : List Char) (creation_datetime : PyDatetime) :
    List Char :=
  label ++ '_' :: (creation_datetime.dateStr ++ '_' :: creation_datetime.timeStr)

/-- The derived-data descriptor record constructed by
`upload_derived_data_contents_to_s3`, with exactly the fields the call site
sets. -/
structure DerivedDataDescription where
  creation_time : PyDatetime
  process_name : List Char
  input_data_name : List Char
  modality : List Modality
  platform : Platform
  institution : Organization
  subject_id : List Char
  investigators : List PIDName
  funding_source : List Funding
deriving DecidableEq

/-- Modelled from the spec: the external library's fixed file name for the
generated metadata JSON sidecar (`derived_data.default_filename()`). -/
def derivedDataDefaultFilename : List Char := chars "data_description.json"

/-- An error raised by a boto3 service client (`botocore`'s `ClientError`),
carrying the response the warning message interpolates. -/
structure ClientError where
  response : List Char
deriving DecidableEq

/-- A failure of Python's `json.loads` on a malformed document. -/
inductive JsonDecodeError where
  | invalidDocument
deriving DecidableEq

/-- `download_params_from_aws` from `upload_utils.py`: fetch a JSON
configuration blob from the parameter store.  The boto3 client and the
standard-library JSON parser are passed in as functions; a `ClientError`
from the service is caught, a warning is printed, and `None` is returned,
while a JSON-decoding failure on a retrieved value is not caught and
propagates.  The result pairs the returned value with the printed
warnings. -/
def download_params_from_aws
    (ssmGetParameter : List Char → Except ClientError (List Char))
    (jsonLoads : List Char → Except JsonDecodeError Json)
    (storeName : List Char) :
    Except JsonDecodeError (Option Json × List (List Char)) :=
  match ssmGetParameter storeName with
  | .ok paramString =>
    match jsonLoads paramString with
    | .ok params => .ok (some params, [])
    | .error e => .error e
  | .error e =>
    .ok (none, [chars "WARNING: Unable to retrieve parameters from aws: " ++ e.response])

/-- `download_secrets_from_aws` from `upload_utils.py`: same shape as
`download_params_from_aws`, against the secrets-manager client. -/
def download_secrets_from_aws
    (smGetSecretValue : List Char → Except ClientError (List Char))
    (jsonLoads : List Char → Except JsonDecodeError Json)
    (secretsName : List Char) :
    Except JsonDecodeError (Option Json × List (List Char)) :=
  match smGetSecretValue secretsName with
  | .ok secretAsString =>
    match jsonLoads secretAsString with
    | .ok secrets => .ok (some secrets, [])
    | .error e => .error e
  | .error e =>
    .ok (none, [chars "WARNING: Unable to retrieve parameters from aws: " ++ e.response])

/-- The outputs of the git queries `get_list_of_new_files_to_upload` makes
about the latest commit: author name, commit timestamp, and the raw
`--name-status` log output. -/
structure GitLastCommit where
  author : List Char
  timestamp : Int
  nameStatusOutput : List Char

/-- The per-line body of the loop of `get_list_of_new_files_to_upload`: match
the commit pattern, require the root folder's first underscore-delimited
segment to be a known platform abbreviation and the line to contain
`curation`, and return the line from the first occurrence of the root folder
on. -/
def newCurationFileOfLine (line : List Char) : Option (List Char) :=
  match matchCommitPattern line with
  | none => none
  | some rootFolder =>
    if platformAbbreviations.contains (rootFolder.takeWhile (fun c => c != '_')) then
      if pyContains (chars "curation") line then
        some (pySliceFrom line (pyFind rootFolder line))
      else none
    else none

/-- `get_list_of_new_files_to_upload` from `upload_utils.py`: keep the log
lines starting with `A` or `M`, and collect the curation files they name;
returns the commit author, the commit datetime (as its timestamp) and the
collected set. -/
def get_list_of_new_files_to_upload (git : GitLastCommit) :
    List Char × Int × List (List Char) :=
  let filesInLastCommitList :=
    (pySplitOn '\n' git.nameStatusOutput).filter
      (fun f => (chars "A").isPrefixOf f || (chars "M").isPrefixOf f)
  (git.author, git.timestamp, filesInLastCommitList.filterMap newCurationFileOfLine)

/-- `Path.relative_to(root)` for a path lying under `root`: drop the root and
the separator after it. -/
def relativeTo (rootFolder p : List Char) : List Char :=
  p.drop (rootFolder.length + 1)

/-- `get_list_of_all_files_to_upload` from `upload_utils.py`.  The file-system
scan (`glob`) and the per-file git queries are inputs: `jsonFilesInTree` is
the list of JSON file paths under the repository root, `gitMeta` gives the
author and timestamp of the last commit touching a file, and `utcFromTs` is
`datetime.utcfromtimestamp`.  Returns the authors, the commit datetimes, and
the curation files relative to the root, in matching order. -/
def get_list_of_all_files_to_upload
    (rootFolder : List Char)
    (jsonFilesInTree : List (List Char))
    (gitMeta : List Char → List Char × Int)
    (utcFromTs : Int → PyDatetime) :
    List (List Char) × List PyDatetime × List (List Char) :=
  let curationFiles := jsonFilesInTree.filter (fun p => pyContains (chars "curation") p)
  let curationFilesToUpload := curationFiles.map (fun p => relativeTo rootFolder p)
  let authorsFromCommit := curationFiles.map (fun f => (gitMeta f).1)
  let datetimesFromCommit := curationFiles.map (fun f => utcFromTs (gitMeta f).2)
  (authorsFromCommit, datetimesFromCommit, curationFilesToUpload)

/-- A failure raised by `subprocess.run` itself for the storage sync call
(for example a missing executable); a nonzero exit status of the tool is not
surfaced by the source, which never checks the return code. -/
inductive SyncError where
  | raised (msg : List Char)
deriving DecidableEq

/-- The unhandled Python errors `upload_derived_data_contents_to_s3` can
terminate with: an index error from taking the second-to-last parent of a
too-short path, the attribute error from accessing a capture group of a
failed pattern match, and a propagated subprocess failure. -/
inductive PyError where
  | indexError
  | nullGroupAccess
  | syncRaised (e : SyncError)
deriving DecidableEq

/-- The observable file-system and subprocess actions of one call to
`upload_derived_data_contents_to_s3`, in program order.  Creation and removal
of the temporary staging directory are emitted by the context-manager
combinator below. -/
inductive Effect where
  | createTempDir
  | mkdirParents (path : List Char)
  | copyFile (src dst : List Char)
  | writeFile (path : List Char) (contents : DerivedDataDescription)
  | runSubprocess (cmd : List (List Char))
  | removeTempDir
deriving DecidableEq

/-- The staging directory created inside the anonymous temporary directory
(`Path(td) / "files_to_upload"` in the source, with `td` left implicit). -/
def filesToUploadPath : List Char := chars "files_to_upload"

/-- The no-op flag appended to the sync command in dry-run mode. -/
def dryrunFlag : List Char := chars "--dryrun"

/-- Python's `with tempfile.TemporaryDirectory()` block: the directory is
created on entry and removed on exit on both the normal and the exceptional
path, and an exception raised by the body propagates after the cleanup. -/
def withTemporaryDirectory {ε α : Type} (body : Except ε α × List Effect) :
    Except ε α × List Effect :=
  (body.1, Effect.createTempDir :: body.2 ++ [Effect.removeTempDir])

/-- `upload_derived_data_contents_to_s3` from `upload_utils.py`.  The
environment-configured author map, the clock (`datetime.utcnow`) and the
subprocess runner for the aws CLI are explicit inputs; the curated file path
is given by its segments.  Returns either the `(s3_prefix, subject_id,
platform)` triple of the source or the unhandled error the source would
terminate with, together with the trace of performed effects. -/
def upload_derived_data_contents_to_s3
    (investigatorsGhToNameMap : List (List Char × List Char))
    (utcnow : PyDatetime)
    (runSync : List (List Char) → Except SyncError Unit)
    (pathToCuratedFile : List (List Char))
    (s3Bucket : List Char)
    (authorFromCommit : List Char)
    (datetimeFromCommit : Option PyDatetime)
    (dryrun : Bool) :
    Except PyError (List Char × List Char × List Char) × List Effect :=
  let processName :=
    pyReplace (chars "_") (chars "-")
      (pyReplace (chars "curation") (chars "curated")
        (pyStem (pathToCuratedFile.getLastD [])))
  let author := pyReplace (chars "\n") [] authorFromCommit
  match pathToCuratedFile with
  | [] => (.error .indexError, [])
  | [_] => (.error .indexError, [])
  | dirName :: seg :: segs =>
    let creationDatetime := datetimeFromCommit.getD utcnow
    let investigators := [PIDName.mk (dictGetD investigatorsGhToNameMap author author)]
    match dataRegexRawMatch dirName with
    | none => (.error .nullGroupAccess, [])
    | some (platform, subjectId) =>
      let derivedData : DerivedDataDescription :=
        { creation_time := creationDatetime
          process_name := processName
          input_data_name := dirName
          modality := [Modality.ECEPHYS]
          platform := Platform.from_abbreviation platform
          institution := Organization.AIND
          subject_id := subjectId
          investigators := investigators
          funding_source := [Funding.mk Organization.AI] }
      let newPathNameSuffix := build_data_name processName creationDatetime
      let s3Prefix := dirName ++ '_' :: newPathNameSuffix
      let relPath := joinPath (dirName :: seg :: segs)
      let awsDest := chars "s3://" ++ s3Bucket ++ '/' :: s3Prefix
      let baseCommand := [chars "aws", chars "s3", chars "sync", filesToUploadPath, awsDest]
      let command := if dryrun then baseCommand ++ [dryrunFlag] else baseCommand
      let staging :=
        [Effect.mkdirParents
            (filesToUploadPath ++ '/' :: joinPath ((dirName :: seg :: segs).dropLast)),
         Effect.copyFile relPath (filesToUploadPath ++ '/' :: relPath),
         Effect.writeFile (filesToUploadPath ++ '/' :: derivedDataDefaultFilename) derivedData]
      withTemporaryDirectory
        ((match runSync command with
          | .ok _ => Except.ok (s3Prefix, subjectId, platform)
          | .error e => Except.error (PyError.syncRaised e)),
         staging ++ [Effect.runSubprocess command])

/-- One iteration of the main loop of `upload_new_asset.py`: run the upload,
then call the Registrar exactly when the dry-run flag is unset and the upload
returned normally.  The boolean records whether `register_to_codeocean` was
invoked. -/
def upload_new_asset_iteration
    (investigatorsGhToNameMap : List (List Char × List Char))
    (utcnow : PyDatetime)
    (runSync : List (List Char) → Except SyncError Unit)
    (pathToCuratedFile : List (List Char))
    (s3Bucket : List Char)
    (authorFromCommit : List Char)
    (datetimeFromCommit : Option PyDatetime)
    (dryRun : Bool) :
    (Except PyError (List Char × List Char × List Char) × List Effect) × Bool :=
  let r := upload_derived_data_contents_to_s3 investigatorsGhToNameMap utcnow
    runSync pathToCuratedFile s3Bucket authorFromCommit datetimeFromCommit dryRun
  match r.1 with
  | .ok _ => (r, !dryRun)
  | .error _ => (r, false)

/-- The capsule-run request of the external CodeOcean client, as the scripts
construct it: a capsule id and a list of string parameters. -/
structure RunCapsuleRequest where
  capsule_id : List Char
  parameters : List (List Char)

/-- `register_to_codeocean` from `upload_utils.py`, purified to the request
it submits through the external client's `run_capsule`: the nested
job-description payload is serialized with `json.dumps` into the sole
parameter of the request. -/
def register_to_codeocean
    (capsuleId s3Bucket s3Prefix subjectId platformAbbr : List Char) :
    RunCapsuleRequest :=
  let customMetadata : List (List Char × Json) :=
    [(chars "modality", .str (chars "Extracellular electrophysiology")),
     (chars "experiment type", .str platformAbbr),
     (chars "data level", .str DataLevel.DERIVED.value),
     (chars "subject id", .str subjectId)]
  let tags :=
    [chars "ecephys", subjectId, chars "curated", platformAbbr,
     DataLevel.DERIVED.value]
  let coJobParams := Json.obj
    [(chars "trigger_codeocean_job", Json.obj
      [(chars "job_type", .str (chars "register_data")),
       (chars "capsule_id", .str capsuleId),
       (chars "bucket", .str s3Bucket),
       (chars "prefix", .str s3Prefix),
       (chars "tags", .arr (tags.map .str)),
       (chars "custom_metadata", Json.obj customMetadata)])]
  { capsule_id := capsuleId, parameters := [jsonDumps coJobParams] }

/-- C2: a curated file path whose containing folder's name does not match the
raw-data naming pattern makes `upload_derived_data_contents_to_s3` fail at
once with the null-group access: no descriptor is built, nothing is staged or
uploaded, and no result triple is returned. -/
theorem spec_c2_nonmatching_folder_fails_immediately
    (ghMap : List (List Char × List Char)) (utcnow : PyDatetime)
    (runSync : List (List Char) → Except SyncError Unit)
    (dirName seg : List Char) (segs : List (List Char))
    (s3Bucket author : List Char) (dtc : Option PyDatetime) (dryrun : Bool)
    (hm : dataRegexRawMatch dirName = none) :
    upload_derived_data_contents_to_s3 ghMap utcnow runSync
        (dirName :: seg :: segs) s3Bucket author dtc dryrun =
      (.error PyError.nullGroupAccess, []) := by
  simp [upload_derived_data_contents_to_s3, hm]

/-- Witness for C2 at a concrete non-matching folder name. -/
theorem spec_c2_witness :
    dataRegexRawMatch (chars "not-matching") = none ∧
      upload_derived_data_contents_to_s3 [] ⟨chars "2023-05-05", chars "10-11-12"⟩
          (fun _ => Except.ok ())
          [chars "not-matching", chars "curation", chars "curation.json"]
          (chars "my-bucket") (chars "alice") none false =
        (.error PyError.nullGroupAccess, []) :=
  ⟨by decide,
   spec_c2_nonmatching_folder_fails_immediately [] ⟨chars "2023-05-05", chars "10-11-12"⟩
     (fun _ => Except.ok ()) (chars "not-matching") (chars "curation")
     [chars "curation.json"] (chars "my-bucket") (chars "alice") none false
     (by decide)⟩

/-- C8: when the parameter-store (resp. secrets-manager) lookup fails with a
service client error, `download_params_from_aws`
(resp. `download_secrets_from_aws`) returns `None` and prints a warning
instead of raising. -/
theorem spec_c8_client_error_returns_none_with_warning
    (ssmGetParameter smGetSecretValue : List Char → Except ClientError (List Char))
    (jsonLoads : List Char → Except JsonDecodeError Json)
    (storeName secretsName : List Char) (e1 e2 : ClientError)
    (h1 : ssmGetParameter storeName = .error e1)
    (h2 : smGetSecretValue secretsName = .error e2) :
    download_params_from_aws ssmGetParameter jsonLoads storeName =
      .ok (none, [chars "WARNING: Unable to retrieve parameters from aws: " ++ e1.response]) ∧
    download_secrets_from_aws smGetSecretValue jsonLoads secretsName =
      .ok (none, [chars "WARNING: Unable to retrieve parameters from aws: " ++ e2.response]) := by
  constructor
  · simp [download_params_from_aws, h1]
  · simp [download_secrets_from_aws, h2]

/-- Witness for C8 at a concrete failing store name. -/
theorem spec_c8_witness :
    (fun (_ : List Char) => (Except.error ⟨chars "AccessDenied"⟩ :
        Except ClientError (List Char))) (chars "missing-store") =
      .error ⟨chars "AccessDenied"⟩ ∧
    (fun (_ : List Char) => (Except.error ⟨chars "NotFound"⟩ :
        Except ClientError (List Char))) (chars "missing-secret") =
      .error ⟨chars "NotFound"⟩ ∧
    (download_params_from_aws (fun _ => Except.error ⟨chars "AccessDenied"⟩)
        (fun _ => Except.error JsonDecodeError.invalidDocument) (chars "missing-store") =
      .ok (none, [chars "WARNING: Unable to retrieve parameters from aws: " ++ chars "AccessDenied"]) ∧
    download_secrets_from_aws (fun _ => Except.error ⟨chars "NotFound"⟩)
        (fun _ => Except.error JsonDecodeError.invalidDocument) (chars "missing-secret") =
      .ok (none, [chars "WARNING: Unable to retrieve parameters from aws: " ++ chars "NotFound"])) :=
  ⟨rfl, rfl,
   spec_c8_client_error_returns_none_with_warning
     (fun _ => Except.error ⟨chars "AccessDenied"⟩)
     (fun _ => Except.error ⟨chars "NotFound"⟩)
     (fun _ => Except.error JsonDecodeError.invalidDocument)
     (chars "missing-store") (chars "missing-secret") _ _ rfl rfl⟩

/-- C5: `register_to_codeocean` submits the whole job description as the
single JSON-string parameter of the capsule-run request, with the hardcoded
electrophysiology modality, the data level `derived`, the subject id and the
platform abbreviation in the custom metadata, and `derived` among the tags. -/
theorem spec_c5_register_payload_shape
    (capsuleId s3Bucket s3Prefix subjectId platformAbbr : List Char) :
    (register_to_codeocean capsuleId s3Bucket s3Prefix subjectId
        platformAbbr).capsule_id = capsuleId ∧
    (register_to_codeocean capsuleId s3Bucket s3Prefix subjectId
        platformAbbr).parameters =
      [jsonDumps (Json.obj
        [(chars "trigger_codeocean_job", Json.obj
          [(chars "job_type", Json.str (chars "register_data")),
           (chars "capsule_id", Json.str capsuleId),
           (chars "bucket", Json.str s3Bucket),
           (chars "prefix", Json.str s3Prefix),
           (chars "tags", Json.arr
             ([chars "ecephys", subjectId, chars "curated", platformAbbr,
               chars "derived"].map Json.str)),
           (chars "custom_metadata", Json.obj
             [(chars "modality", Json.str (chars "Extracellular electrophysiology")),
              (chars "experiment type", Json.str platformAbbr),
              (chars "data level", Json.str (chars "derived")),
              (chars "subject id", Json.str subjectId)])])])] ∧
    chars "derived" ∈
      [chars "ecephys", subjectId, chars "curated", platformAbbr, chars "derived"] := by
  exact ⟨rfl, rfl, by simp⟩

/-- C7: the temporary staging directory of
`upload_derived_data_contents_to_s3` is removed exactly when it was created,
for every input and every behavior of the sync subprocess — success, failure,
or dry run. -/
theorem spec_c7_tempdir_always_cleaned_up
    (ghMap : List (List Char × List Char)) (utcnow : PyDatetime)
    (runSync : List (List Char) → Except SyncError Unit)
    (pathToCuratedFile : List (List Char))
    (s3Bucket author : List Char) (dtc : Option PyDatetime) (dryrun : Bool) :
    (Effect.removeTempDir ∈
        (upload_derived_data_contents_to_s3 ghMap utcnow runSync
          pathToCuratedFile s3Bucket author dtc dryrun).2 ↔
      Effect.createTempDir ∈
        (upload_derived_data_contents_to_s3 ghMap utcnow runSync
          pathToCuratedFile s3Bucket author dtc dryrun).2) := by
  match pathToCuratedFile with
  | [] => simp [upload_derived_data_contents_to_s3]
  | [a] => simp [upload_derived_data_contents_to_s3]
  | a :: b :: rest =>
    cases hm : dataRegexRawMatch a with
    | none => simp [upload_derived_data_contents_to_s3, hm]
    | some pr =>
      obtain ⟨p, subj⟩ := pr
      simp [upload_derived_data_contents_to_s3, hm, withTemporaryDirectory]

/-- C9: `get_list_of_all_files_to_upload` returns three sequences of equal
length, and at each index the author and datetime come from the last commit
touching the file returned at that index. -/
theorem spec_c9_all_files_sequences_aligned
    (rootFolder : List Char) (jsonFilesInTree : List (List Char))
    (gitMeta : List Char → List Char × Int) (utcFromTs : Int → PyDatetime) :
    (get_list_of_all_files_to_upload rootFolder jsonFilesInTree gitMeta utcFromTs).1.length =
      (get_list_of_all_files_to_upload rootFolder jsonFilesInTree gitMeta utcFromTs).2.2.length ∧
    (get_list_of_all_files_to_upload rootFolder jsonFilesInTree gitMeta utcFromTs).2.1.length =
      (get_list_of_all_files_to_upload rootFolder jsonFilesInTree gitMeta utcFromTs).2.2.length ∧
    ∀ i, i < (get_list_of_all_files_to_upload rootFolder jsonFilesInTree gitMeta utcFromTs).2.2.length →
      ∃ f, f ∈ jsonFilesInTree ∧
        (get_list_of_all_files_to_upload rootFolder jsonFilesInTree gitMeta utcFromTs).2.2.getD i [] =
          relativeTo rootFolder f ∧
        (get_list_of_all_files_to_upload rootFolder jsonFilesInTree gitMeta utcFromTs).1.getD i [] =
          (gitMeta f).1 ∧
        (get_list_of_all_files_to_upload rootFolder jsonFilesInTree gitMeta utcFromTs).2.1.getD i
            ⟨[], []⟩ =
          utcFromTs (gitMeta f).2 := by
  refine ⟨by simp [get_list_of_all_files_to_upload], by simp [get_list_of_all_files_to_upload], ?_⟩
  intro i hi
  simp only [get_list_of_all_files_to_upload, List.length_map] at hi ⊢
  refine ⟨(jsonFilesInTree.filter (fun p => pyContains (chars "curation") p)).get ⟨i, hi⟩,
    List.mem_of_mem_filter (List.get_mem _ _ hi), ?_, ?_, ?_⟩
  · rw [List.getD_eq_getElem _ _ (by simpa using hi)]
    simp
  · rw [List.getD_eq_getElem _ _ (by simpa using hi)]
    simp
  · rw [List.getD_eq_getElem _ _ (by simpa using hi)]
    simp

/-- The first component of an iteration of the `upload_new_asset.py` loop is
exactly the upload call's result, whatever that result is. -/
theorem upload_new_asset_iteration_fst
    (ghMap : List (List Char × List Char)) (utcnow : PyDatetime)
    (runSync : List (List Char) → Except SyncError Unit)
    (pathToCuratedFile : List (List Char))
    (s3Bucket author : List Char) (dtc : Option PyDatetime) (dryRun : Bool) :
    (upload_new_asset_iteration ghMap utcnow runSync pathToCuratedFile
        s3Bucket author dtc dryRun).1 =
      upload_derived_data_contents_to_s3 ghMap utcnow runSync pathToCuratedFile
        s3Bucket author dtc dryRun := by
  unfold upload_new_asset_iteration
  rcases hr : upload_derived_data_contents_to_s3 ghMap utcnow runSync pathToCuratedFile
      s3Bucket author dtc dryRun with ⟨res, trace⟩
  cases res <;> simp [hr]

/-- With the dry-run flag set, an iteration of the `upload_new_asset.py` loop
never calls the Registrar, whatever the upload does. -/
theorem upload_new_asset_iteration_dryrun_no_register
    (ghMap : List (List Char × List Char)) (utcnow : PyDatetime)
    (runSync : List (List Char) → Except SyncError Unit)
    (pathToCuratedFile : List (List Char))
    (s3Bucket author : List Char) (dtc : Option PyDatetime) :
    (upload_new_asset_iteration ghMap utcnow runSync pathToCuratedFile
        s3Bucket author dtc true).2 = false := by
  unfold upload_new_asset_iteration
  rcases hr : upload_derived_data_contents_to_s3 ghMap utcnow runSync pathToCuratedFile
      s3Bucket author dtc true with ⟨res, trace⟩
  cases res <;> simp [hr]

/-- C1: for a containing folder name matching the raw-data pattern, the first
capture is the platform and the second the subject id; the constructed
descriptor's `platform` and `subject_id` fields equal those captures, and so
do the platform and subject-id components of the returned triple. -/
theorem spec_c1_captures_flow_to_descriptor_and_triple
    (ghMap : List (List Char × List Char)) (utcnow : PyDatetime)
    (runSync : List (List Char) → Except SyncError Unit)
    (dirName seg : List Char) (segs : List (List Char))
    (s3Bucket author : List Char) (dtc : Option PyDatetime) (dryrun : Bool)
    (p subj : List Char)
    (hm : dataRegexRawMatch dirName = some (p, subj))
    (hok : ∀ cmd, runSync cmd = .ok ()) :
    ∃ pfx mk cp cmd dd,
      upload_derived_data_contents_to_s3 ghMap utcnow runSync
          (dirName :: seg :: segs) s3Bucket author dtc dryrun =
        (.ok (pfx, subj, p),
         [Effect.createTempDir, Effect.mkdirParents mk,
          Effect.copyFile cp (filesToUploadPath ++ '/' :: cp),
          Effect.writeFile (filesToUploadPath ++ '/' :: derivedDataDefaultFilename) dd,
          Effect.runSubprocess cmd, Effect.removeTempDir]) ∧
      dd.platform = Platform.from_abbreviation p ∧
      dd.platform.abbreviation = p ∧
      dd.subject_id = subj := by
  simp only [upload_derived_data_contents_to_s3, hm, hok, withTemporaryDirectory]
  exact ⟨_, _, _, _, _, rfl, rfl, rfl, rfl⟩

/-- Witness for C1 at a concrete matching folder name. -/
theorem spec_c1_witness :
    dataRegexRawMatch (chars "ecephys_605238_2023-01-01_12-00-00") =
      some (chars "ecephys", chars "605238") ∧
    (∃ pfx mk cp cmd dd,
      upload_derived_data_contents_to_s3 [] ⟨chars "2024-01-02", chars "03-04-05"⟩
          (fun _ => Except.ok ())
          [chars "ecephys_605238_2023-01-01_12-00-00", chars "curation", chars "curation.json"]
          (chars "my-bucket") (chars "alice") none false =
        (.ok (pfx, chars "605238", chars "ecephys"),
         [Effect.createTempDir, Effect.mkdirParents mk,
          Effect.copyFile cp (filesToUploadPath ++ '/' :: cp),
          Effect.writeFile (filesToUploadPath ++ '/' :: derivedDataDefaultFilename) dd,
          Effect.runSubprocess cmd, Effect.removeTempDir]) ∧
      dd.platform = Platform.from_abbreviation (chars "ecephys") ∧
      dd.platform.abbreviation = chars "ecephys" ∧
      dd.subject_id = chars "605238") :=
  ⟨by decide,
   spec_c1_captures_flow_to_descriptor_and_triple []
     ⟨chars "2024-01-02", chars "03-04-05"⟩ (fun _ => Except.ok ())
     (chars "ecephys_605238_2023-01-01_12-00-00") (chars "curation")
     [chars "curation.json"] (chars "my-bucket") (chars "alice") none false
     (chars "ecephys") (chars "605238") (by decide) (fun _ => rfl)⟩

/-- C3: with the dry-run flag set, the sync tool is invoked with the no-op
flag appended and the Registrar is never called, while the local staging
(directory creation, file copy, metadata sidecar) is exactly that of a real
run. -/
theorem spec_c3_dryrun_stages_without_network
    (ghMap : List (List Char × List Char)) (utcnow : PyDatetime)
    (runSync : List (List Char) → Except SyncError Unit)
    (dirName seg : List Char) (segs : List (List Char))
    (s3Bucket author : List Char) (dtc : Option PyDatetime)
    (p subj : List Char)
    (hm : dataRegexRawMatch dirName = some (p, subj)) :
    ∃ staging dest,
      (upload_new_asset_iteration ghMap utcnow runSync (dirName :: seg :: segs)
          s3Bucket author dtc true).1.2 =
        Effect.createTempDir :: staging ++
          [Effect.runSubprocess
            ([chars "aws", chars "s3", chars "sync", filesToUploadPath, dest] ++ [dryrunFlag]),
           Effect.removeTempDir] ∧
      (upload_new_asset_iteration ghMap utcnow runSync (dirName :: seg :: segs)
          s3Bucket author dtc false).1.2 =
        Effect.createTempDir :: staging ++
          [Effect.runSubprocess [chars "aws", chars "s3", chars "sync", filesToUploadPath, dest],
           Effect.removeTempDir] ∧
      (∃ mk cp dd, staging =
        [Effect.mkdirParents mk, Effect.copyFile cp (filesToUploadPath ++ '/' :: cp),
         Effect.writeFile (filesToUploadPath ++ '/' :: derivedDataDefaultFilename) dd]) ∧
      (upload_new_asset_iteration ghMap utcnow runSync (dirName :: seg :: segs)
          s3Bucket author dtc true).2 = false := by
  rw [upload_new_asset_iteration_fst, upload_new_asset_iteration_fst]
  simp only [upload_derived_data_contents_to_s3, hm, withTemporaryDirectory,
    if_true, if_false, Bool.false_eq_true, List.append_assoc, List.cons_append,
    List.nil_append, List.singleton_append]
  exact ⟨_, _, rfl, rfl, ⟨_, _, _, rfl⟩,
    upload_new_asset_iteration_dryrun_no_register _ _ _ _ _ _ _⟩

/-- Witness for C3 at a concrete curated file. -/
theorem spec_c3_witness :
    dataRegexRawMatch (chars "ecephys_605238_2023-01-01_12-00-00") =
      some (chars "ecephys", chars "605238") ∧
    (∃ staging dest,
      (upload_new_asset_iteration [] ⟨chars "2024-01-02", chars "03-04-05"⟩
          (fun _ => Except.ok ())
          [chars "ecephys_605238_2023-01-01_12-00-00", chars "curation", chars "curation.json"]
          (chars "my-bucket") (chars "alice") none true).1.2 =
        Effect.createTempDir :: staging ++
          [Effect.runSubprocess
            ([chars "aws", chars "s3", chars "sync", filesToUploadPath, dest] ++ [dryrunFlag]),
           Effect.removeTempDir] ∧
      (upload_new_asset_iteration [] ⟨chars "2024-01-02", chars "03-04-05"⟩
          (fun _ => Except.ok ())
          [chars "ecephys_605238_2023-01-01_12-00-00", chars "curation", chars "curation.json"]
          (chars "my-bucket") (chars "alice") none false).1.2 =
        Effect.createTempDir :: staging ++
          [Effect.runSubprocess [chars "aws", chars "s3", chars "sync", filesToUploadPath, dest],
           Effect.removeTempDir] ∧
      (∃ mk cp dd, staging =
        [Effect.mkdirParents mk, Effect.copyFile cp (filesToUploadPath ++ '/' :: cp),
         Effect.writeFile (filesToUploadPath ++ '/' :: derivedDataDefaultFilename) dd]) ∧
      (upload_new_asset_iteration [] ⟨chars "2024-01-02", chars "03-04-05"⟩
          (fun _ => Except.ok ())
          [chars "ecephys_605238_2023-01-01_12-00-00", chars "curation", chars "curation.json"]
          (chars "my-bucket") (chars "alice") none true).2 = false) :=
  ⟨by decide,
   spec_c3_dryrun_stages_without_network []
     ⟨chars "2024-01-02", chars "03-04-05"⟩ (fun _ => Except.ok ())
     (chars "ecephys_605238_2023-01-01_12-00-00") (chars "curation")
     [chars "curation.json"] (chars "my-bucket") (chars "alice") none
     (chars "ecephys") (chars "605238") (by decide)⟩

/-- C6: the destination prefix is the containing folder's name, an
underscore, and the timestamp-suffixed label
`<process-name>_<creation-date>_<creation-time>`; the sync destination is
`s3://<bucket>/<that prefix>` and the generated metadata JSON file sits at
the root of the staged directory, hence of the prefix. -/
theorem spec_c6_destination_layout
    (ghMap : List (List Char × List Char)) (utcnow : PyDatetime)
    (runSync : List (List Char) → Except SyncError Unit)
    (dirName seg : List Char) (segs : List (List Char))
    (s3Bucket author : List Char) (dtc : Option PyDatetime)
    (p subj : List Char)
    (hm : dataRegexRawMatch dirName = some (p, subj))
    (hok : ∀ cmd, runSync cmd = .ok ()) :
    ∃ processName mk cp dd,
      upload_derived_data_contents_to_s3 ghMap utcnow runSync
          (dirName :: seg :: segs) s3Bucket author dtc false =
        (.ok (dirName ++ '_' :: (processName ++ '_' ::
            ((dtc.getD utcnow).dateStr ++ '_' :: (dtc.getD utcnow).timeStr)), subj, p),
         [Effect.createTempDir, Effect.mkdirParents mk,
          Effect.copyFile cp (filesToUploadPath ++ '/' :: cp),
          Effect.writeFile (filesToUploadPath ++ '/' :: derivedDataDefaultFilename) dd,
          Effect.runSubprocess [chars "aws", chars "s3", chars "sync", filesToUploadPath,
            chars "s3://" ++ s3Bucket ++ '/' :: (dirName ++ '_' :: (processName ++ '_' ::
              ((dtc.getD utcnow).dateStr ++ '_' :: (dtc.getD utcnow).timeStr)))],
          Effect.removeTempDir]) ∧
      '/' ∉ derivedDataDefaultFilename := by
  simp only [upload_derived_data_contents_to_s3, hm, hok, withTemporaryDirectory,
    build_data_name, if_false, Bool.false_eq_true, List.append_assoc, List.cons_append,
    List.nil_append, List.singleton_append]
  exact ⟨_, _, _, _, rfl, by decide⟩

/-- Witness for C6 at a concrete curated file. -/
theorem spec_c6_witness :
    dataRegexRawMatch (chars "ecephys_605238_2023-01-01_12-00-00") =
      some (chars "ecephys", chars "605238") ∧
    (∃ processName mk cp dd,
      upload_derived_data_contents_to_s3 [] ⟨chars "2024-01-02", chars "03-04-05"⟩
          (fun _ => Except.ok ())
          [chars "ecephys_605238_2023-01-01_12-00-00", chars "curation", chars "curation.json"]
          (chars "my-bucket") (chars "alice") none false =
        (.ok (chars "ecephys_605238_2023-01-01_12-00-00" ++ '_' :: (processName ++ '_' ::
            (((none : Option PyDatetime).getD ⟨chars "2024-01-02", chars "03-04-05"⟩).dateStr ++ '_' ::
              ((none : Option PyDatetime).getD ⟨chars "2024-01-02", chars "03-04-05"⟩).timeStr)),
          chars "605238", chars "ecephys"),
         [Effect.createTempDir, Effect.mkdirParents mk,
          Effect.copyFile cp (filesToUploadPath ++ '/' :: cp),
          Effect.writeFile (filesToUploadPath ++ '/' :: derivedDataDefaultFilename) dd,
          Effect.runSubprocess [chars "aws", chars "s3", chars "sync", filesToUploadPath,
            chars "s3://" ++ chars "my-bucket" ++ '/' ::
              (chars "ecephys_605238_2023-01-01_12-00-00" ++ '_' :: (processName ++ '_' ::
                (((none : Option PyDatetime).getD ⟨chars "2024-01-02", chars "03-04-05"⟩).dateStr ++ '_' ::
                  ((none : Option PyDatetime).getD ⟨chars "2024-01-02", chars "03-04-05"⟩).timeStr)))],
          Effect.removeTempDir]) ∧
      '/' ∉ derivedDataDefaultFilename) :=
  ⟨by decide,
   spec_c6_destination_layout []
     ⟨chars "2024-01-02", chars "03-04-05"⟩ (fun _ => Except.ok ())
     (chars "ecephys_605238_2023-01-01_12-00-00") (chars "curation")
     [chars "curation.json"] (chars "my-bucket") (chars "alice") none
     (chars "ecephys") (chars "605238") (by decide) (fun _ => rfl)⟩

set_option maxRecDepth 8000 in
/-- Witness for C9 at a concrete scan result, index 0. -/
theorem spec_c9_witness :
    0 < (get_list_of_all_files_to_upload (chars "repo")
          [chars "repo/ecephys_605238_2023-01-01_12-00-00/curation/curation.json"]
          (fun _ => (chars "alice", (5 : Int)))
          (fun _ => PyDatetime.mk (chars "1970-01-01") (chars "00-00-05"))).2.2.length ∧
    (∃ f, f ∈ [chars "repo/ecephys_605238_2023-01-01_12-00-00/curation/curation.json"] ∧
      (get_list_of_all_files_to_upload (chars "repo")
          [chars "repo/ecephys_605238_2023-01-01_12-00-00/curation/curation.json"]
          (fun _ => (chars "alice", (5 : Int)))
          (fun _ => PyDatetime.mk (chars "1970-01-01") (chars "00-00-05"))).2.2.getD 0 [] =
        relativeTo (chars "repo") f ∧
      (get_list_of_all_files_to_upload (chars "repo")
          [chars "repo/ecephys_605238_2023-01-01_12-00-00/curation/curation.json"]
          (fun _ => (chars "alice", (5 : Int)))
          (fun _ => PyDatetime.mk (chars "1970-01-01") (chars "00-00-05"))).1.getD 0 [] =
        ((fun (_ : List Char) => (chars "alice", (5 : Int))) f).1 ∧
      (get_list_of_all_files_to_upload (chars "repo")
          [chars "repo/ecephys_605238_2023-01-01_12-00-00/curation/curation.json"]
          (fun _ => (chars "alice", (5 : Int)))
          (fun _ => PyDatetime.mk (chars "1970-01-01") (chars "00-00-05"))).2.1.getD 0
          ⟨[], []⟩ =
        (fun (_ : Int) => PyDatetime.mk (chars "1970-01-01") (chars "00-00-05"))
          (((fun (_ : List Char) => (chars "alice", (5 : Int))) f).2)) :=
  ⟨by decide,
   (spec_c9_all_files_sequences_aligned (chars "repo")
      [chars "repo/ecephys_605238_2023-01-01_12-00-00/curation/curation.json"]
      (fun _ => (chars "alice", (5 : Int)))
      (fun _ => PyDatetime.mk (chars "1970-01-01") (chars "00-00-05"))).2.2 0 (by decide)⟩

lemma isPySpace_not_wordOrDash {c : Char} (h : isPySpace c = true) :
    isWordOrDashChar c = false := by
  simp only [isPySpace, Bool.or_eq_true, beq_iff_eq] at h
  rcases h with ((((rfl | rfl) | rfl) | rfl) | rfl) | rfl <;> decide

lemma pyFind_concat (needle suf : List Char) (hne : needle ≠ []) :
    ∀ pre : List Char,
      (∀ p2 : List Char, p2 ≠ [] → p2 <:+ pre →
        needle.isPrefixOf (p2 ++ (needle ++ suf)) = false) →
      pyFind needle (pre ++ (needle ++ suf)) = (pre.length : Int) := by
  intro pre
  induction pre with
  | nil =>
    intro _
    obtain ⟨n0, nt, rfl⟩ : ∃ n0 nt, needle = n0 :: nt := by
      cases needle with
      | nil => exact absurd rfl hne
      | cons a t => exact ⟨a, t, rfl⟩
    simp only [List.nil_append, List.length_nil, Nat.cast_zero, List.cons_append]
    rw [pyFind, if_pos]
    exact List.isPrefixOf_iff_prefix.2 ⟨suf, by simp⟩
  | cons a pre ih =>
    intro hno
    have hstep : needle.isPrefixOf ((a :: pre) ++ (needle ++ suf)) = false :=
      hno (a :: pre) (by simp) (List.suffix_refl _)
    have ihres := ih (fun p2 hp2 hsuf => hno p2 hp2 (hsuf.trans (List.suffix_cons a pre)))
    have hstep2 : needle.isPrefixOf (a :: (pre ++ (needle ++ suf))) = false := by
      rw [← List.cons_append]; exact hstep
    rw [List.cons_append, pyFind, if_neg (by simp [hstep2])]
    simp only [ihres]
    rw [if_neg (by omega)]
    push_cast [List.length_cons]
    ring

lemma pySliceFrom_append (pre rest : List Char) :
    pySliceFrom (pre ++ rest) (pre.length : Int) = rest := by
  simp [pySliceFrom, List.drop_left]

lemma pyFind_nonneg_iff (needle hay : List Char) :
    0 ≤ pyFind needle hay ↔ needle <:+: hay := by
  induction hay with
  | nil =>
    rw [pyFind]
    by_cases hp : needle.isPrefixOf ([] : List Char) = true
    · have : needle = [] := by
        have := List.isPrefixOf_iff_prefix.1 hp
        simpa using this
      simp [hp, this]
    · simp only [hp, Bool.false_eq_true, if_false]
      constructor
      · intro h; omega
      · intro h
        have : needle = [] := by simpa using h
        subst this
        simp at hp
  | cons a t ih =>
    rw [pyFind]
    by_cases hp : needle.isPrefixOf (a :: t) = true
    · simp only [hp, if_true]
      have : needle <:+: a :: t := (List.isPrefixOf_iff_prefix.1 hp).isInfix
      simp [this]
    · simp only [hp, Bool.false_eq_true, if_false]
      rw [List.infix_cons_iff]
      have hnp : ¬ needle <+: a :: t := fun hc => hp (List.isPrefixOf_iff_prefix.2 hc)
      by_cases hr : pyFind needle t < 0
      · rw [if_pos hr]
        have hnt : ¬ needle <:+: t := fun hc => absurd (ih.2 hc) (by omega)
        constructor
        · intro h0; omega
        · rintro (hc | hc)
          · exact absurd hc hnp
          · exact absurd hc hnt
      · rw [if_neg hr]
        have ht : needle <:+: t := ih.1 (by omega)
        constructor
        · intro _; exact Or.inr ht
        · intro _; omega

lemma infix_of_infix_append {needle pre rest : List Char}
    (h : needle <:+: pre ++ rest)
    (hhead : ∀ n0 nt, needle = n0 :: nt → ∀ c ∈ pre, c ≠ n0) :
    needle <:+: rest := by
  obtain ⟨s, t, hst⟩ := h
  cases needle with
  | nil => exact List.nil_infix
  | cons n0 nt =>
    rw [List.append_assoc] at hst
    rcases List.append_eq_append_iff.1 hst with ⟨a', hpre, hrest⟩ | ⟨c', hs, hrest⟩
    · cases a' with
      | nil =>
        simp only [List.nil_append] at hrest
        exact ⟨[], t, by simp [hrest]⟩
      | cons x a'' =>
        exfalso
        have hx : x ∈ pre := by rw [hpre]; simp
        have hxn : n0 = x := by
          simpa using congrArg (fun l => l.head?) hrest
        exact hhead n0 nt rfl x hx hxn.symm
    · exact ⟨c', t, by rw [hrest, List.append_assoc]⟩

lemma matchCommitPattern_eq_some {line root : List Char}
    (h : matchCommitPattern line = some root) :
    ∃ st ws tail, line = st :: (ws ++ (root ++ '/' :: tail)) ∧
      (st = 'A' ∨ st = 'M') ∧ ws ≠ [] ∧ (∀ c ∈ ws, isPySpace c = true) ∧
      root ≠ [] ∧ (∀ c ∈ root, isWordOrDashChar c = true) := by
  match line with
  | [] => simp [matchCommitPattern] at h
  | st :: rest =>
    simp only [matchCommitPattern] at h
    split at h
    case isTrue hst =>
      split at h
      case isTrue hcond =>
        obtain ⟨hws, hroot, hhead⟩ := hcond
        injection h with hr
        obtain ⟨tail, htail⟩ := List.head?_eq_some_iff.1 hhead
        refine ⟨st, rest.takeWhile isPySpace, tail, ?_, ?_, hws, ?_, ?_, ?_⟩
        · have hsplit : rest = rest.takeWhile isPySpace ++
              (root ++ '/' :: tail) := by
            conv_lhs => rw [← List.takeWhile_append_dropWhile (p := isPySpace) (l := rest)]
            congr 1
            rw [← hr, ← htail]
            exact (List.takeWhile_append_dropWhile _ _).symm
          rw [← hsplit]
        · simpa using hst
        · intro c hc; exact List.mem_takeWhile_imp hc
        · rw [← hr]; exact hroot
        · intro c hc; rw [← hr] at hc; exact List.mem_takeWhile_imp hc
      case isFalse => exact absurd h (by simp)
    case isFalse => exact absurd h (by simp)

lemma root_not_single_status {root : List Char}
    (hmem : (root.takeWhile (fun c => c != '_')) ∈ platformAbbreviations) :
    root ≠ ['A'] ∧ root ≠ ['M'] := by
  constructor <;> rintro rfl <;> revert hmem <;> decide

lemma no_root_occurrence_before {st : Char} {ws root suf : List Char}
    (hst : st = 'A' ∨ st = 'M')
    (hws : ∀ c ∈ ws, isPySpace c = true)
    (hwsne : ws ≠ [])
    (hroot : ∀ c ∈ root, isWordOrDashChar c = true)
    (hne : root ≠ []) (hnA : root ≠ ['A']) (hnM : root ≠ ['M']) :
    ∀ p2 : List Char, p2 ≠ [] → p2 <:+ (st :: ws) →
      root.isPrefixOf (p2 ++ (root ++ suf)) = false := by
  intro p2 hp2 hsuf
  cases hb : root.isPrefixOf (p2 ++ (root ++ suf)) with
  | false => rfl
  | true =>
    exfalso
    have hpre := List.isPrefixOf_iff_prefix.1 hb
    obtain ⟨r0, rt, hr⟩ : ∃ r0 rt, root = r0 :: rt := by
      cases root with
      | nil => exact absurd rfl hne
      | cons a t => exact ⟨a, t, rfl⟩
    rcases List.suffix_cons_iff.1 hsuf with h2 | h2
    · subst h2
      obtain ⟨t, ht⟩ := hpre
      rw [hr] at ht
      simp only [List.cons_append] at ht
      have h0 : r0 = st := by
        have := congrArg (fun l => l.head?) ht
        simpa using this
      cases rt with
      | nil =>
        rcases hst with rfl | rfl
        · exact hnA (by rw [hr, h0])
        · exact hnM (by rw [hr, h0])
      | cons r1 rt2 =>
        obtain ⟨w0, wt, hw⟩ : ∃ w0 wt, ws = w0 :: wt := by
          cases ws with
          | nil => exact absurd rfl hwsne
          | cons a t => exact ⟨a, t, rfl⟩
        have h1 : r1 = w0 := by
          have := congrArg (fun l => l.tail.head?) ht
          simp [hw] at this
          exact this
        have hsp : isPySpace r1 = true := h1 ▸ hws w0 (by simp [hw])
        have hwd : isWordOrDashChar r1 = true := hroot r1 (by simp [hr])
        rw [isPySpace_not_wordOrDash hsp] at hwd
        exact Bool.false_ne_true hwd
    · obtain ⟨q0, qt, hq⟩ : ∃ q0 qt, p2 = q0 :: qt := by
        cases p2 with
        | nil => exact absurd rfl hp2
        | cons a t => exact ⟨a, t, rfl⟩
      have hq0 : q0 ∈ ws := by
        obtain ⟨t2, ht2⟩ := h2
        rw [← ht2, hq]
        simp
      obtain ⟨t, ht⟩ := hpre
      rw [hr, hq] at ht
      simp only [List.cons_append] at ht
      have h0 : r0 = q0 := by
        have := congrArg (fun l => l.head?) ht
        simpa using this
      have hsp : isPySpace r0 = true := h0 ▸ hws q0 hq0
      have hwd : isWordOrDashChar r0 = true := hroot r0 (by simp [hr])
      rw [isPySpace_not_wordOrDash hsp] at hwd
      exact Bool.false_ne_true hwd

lemma newCurationFileOfLine_eq_some {line p : List Char}
    (h : newCurationFileOfLine line = some p) :
    ∃ st ws root tail,
      matchCommitPattern line = some root ∧
      (st = 'A' ∨ st = 'M') ∧ ws ≠ [] ∧ (∀ c ∈ ws, isPySpace c = true) ∧
      line = st :: (ws ++ p) ∧
      p = root ++ '/' :: tail ∧
      (root.takeWhile (fun c => c != '_')) ∈ platformAbbreviations ∧
      chars "curation" <:+: p := by
  unfold newCurationFileOfLine at h
  split at h
  next hm => simp at h
  next root hm =>
    split at h
    next hcont =>
      split at h
      next hcur =>
        injection h with hp
        obtain ⟨st, ws, tail, hline, hst, hwsne, hws, hrne, hroot⟩ :=
          matchCommitPattern_eq_some hm
        have hmem : (root.takeWhile (fun c => c != '_')) ∈ platformAbbreviations := by
          rw [List.contains] at hcont
          exact List.elem_iff.1 hcont
        obtain ⟨hnA, hnM⟩ := root_not_single_status hmem
        have hline2 : line = (st :: ws) ++ (root ++ '/' :: tail) := by
          rw [hline]; simp
        have hfind : pyFind root line = (((st :: ws).length : Nat) : Int) := by
          rw [hline2]
          exact pyFind_concat root ('/' :: tail) hrne (st :: ws)
            (no_root_occurrence_before hst hws hwsne hroot hrne hnA hnM)
        have hslice : p = root ++ '/' :: tail := by
          rw [← hp, hfind, hline2, pySliceFrom_append]
        have hcur2 : chars "curation" <:+: line := by
          rw [pyContains, decide_eq_true_eq] at hcur
          exact (pyFind_nonneg_iff _ _).1 hcur
        have hcurp : chars "curation" <:+: p := by
          rw [hslice]
          rw [hline2] at hcur2
          refine infix_of_infix_append hcur2 ?_
          intro n0 nt hneq c hc
          have hn0 : n0 = 'c' := by
            have h9 : 'c' :: chars "uration" = n0 :: nt := by rw [← hneq]; decide
            injection h9 with h9a
            exact h9a.symm
          subst hn0
          rcases List.mem_cons.1 hc with rfl | hcws
          · rcases hst with rfl | rfl <;> decide
          · have := hws c hcws
            intro hcc
            subst hcc
            revert this
            decide
        refine ⟨st, ws, root, tail, hm, hst, hwsne, hws, ?_, hslice, hmem, hcurp⟩
        rw [hline, hslice]
      next hcur => exact absurd h (by simp)
    next hcont => exact absurd h (by simp)

/-- C4: every path returned by the delta-mode Asset Locator starts with a
top-level folder whose first underscore-delimited segment is a known
platform abbreviation and contains the `curation` marker; a line matching
the platform condition but lacking the marker is silently dropped, with no
error. -/
theorem spec_c4_delta_mode_platform_and_curation_filter
    (git : GitLastCommit) :
    (∀ p ∈ (get_list_of_new_files_to_upload git).2.2,
       (∃ root tail, p = root ++ '/' :: tail ∧
         (root.takeWhile (fun c => c != '_')) ∈ platformAbbreviations) ∧
       chars "curation" <:+: p) ∧
    (∀ line root, matchCommitPattern line = some root →
       (root.takeWhile (fun c => c != '_')) ∈ platformAbbreviations →
       ¬ chars "curation" <:+: line → newCurationFileOfLine line = none) := by
  constructor
  · intro p hp
    simp only [get_list_of_new_files_to_upload, List.mem_filterMap] at hp
    obtain ⟨line, hline, hsome⟩ := hp
    obtain ⟨st, ws, root, tail, _, _, _, _, _, hslice, hmem, hcur⟩ :=
      newCurationFileOfLine_eq_some hsome
    exact ⟨⟨root, tail, hslice, hmem⟩, hcur⟩
  · intro line root hm hmem hncur
    have hfalse : pyContains (chars "curation") line = false := by
      rw [pyContains, decide_eq_false_iff_not]
      intro h0
      exact hncur ((pyFind_nonneg_iff _ _).1 h0)
    unfold newCurationFileOfLine
    rw [hm]
    simp only [hfalse, Bool.false_eq_true, if_false]
    split <;> rfl

/-- C10: every returned path is the changed line with its status letter and
the following whitespace stripped, and it begins with the matched top-level
root folder name. -/
theorem spec_c10_returned_paths_are_stripped_relative_paths
    (git : GitLastCommit) :
    ∀ p ∈ (get_list_of_new_files_to_upload git).2.2,
      ∃ line st ws root tail,
        line ∈ pySplitOn '\n' git.nameStatusOutput ∧
        (st = 'A' ∨ st = 'M') ∧ (∀ c ∈ ws, isPySpace c = true) ∧
        line = st :: (ws ++ p) ∧
        matchCommitPattern line = some root ∧
        p = root ++ '/' :: tail := by
  intro p hp
  simp only [get_list_of_new_files_to_upload, List.mem_filterMap] at hp
  obtain ⟨line, hline, hsome⟩ := hp
  have hmemline := (List.mem_filter.1 hline).1
  obtain ⟨st, ws, root, tail, hm, hst, _, hws, hdecomp, hslice, _, _⟩ :=
    newCurationFileOfLine_eq_some hsome
  exact ⟨line, st, ws, root, tail, hmemline, hst, hws, hdecomp, hm, hslice⟩

set_option maxRecDepth 20000 in
/-- Witness for C4: a commit touching a curation file and a raw data file
under the same recognized folder. -/
theorem spec_c4_witness :
    (chars "ecephys_605238_2023-01-01_12-00-00/curation/curation.json" ∈
      (get_list_of_new_files_to_upload
        ⟨chars "alice", 5,
         chars "f00 msg\nA\tecephys_605238_2023-01-01_12-00-00/curation/curation.json\nA\tecephys_605238_2023-01-01_12-00-00/raw/data.bin"⟩).2.2) ∧
    ((∃ root tail,
        chars "ecephys_605238_2023-01-01_12-00-00/curation/curation.json" =
          root ++ '/' :: tail ∧
        (root.takeWhile (fun c => c != '_')) ∈ platformAbbreviations) ∧
      chars "curation" <:+:
        chars "ecephys_605238_2023-01-01_12-00-00/curation/curation.json") ∧
    (matchCommitPattern (chars "A\tecephys_605238_2023-01-01_12-00-00/raw/data.bin") =
        some (chars "ecephys_605238_2023-01-01_12-00-00") ∧
      ¬ chars "curation" <:+: chars "A\tecephys_605238_2023-01-01_12-00-00/raw/data.bin" ∧
      newCurationFileOfLine (chars "A\tecephys_605238_2023-01-01_12-00-00/raw/data.bin") =
        none) :=
  ⟨by decide,
   (spec_c4_delta_mode_platform_and_curation_filter
      ⟨chars "alice", 5,
       chars "f00 msg\nA\tecephys_605238_2023-01-01_12-00-00/curation/curation.json\nA\tecephys_605238_2023-01-01_12-00-00/raw/data.bin"⟩).1
     (chars "ecephys_605238_2023-01-01_12-00-00/curation/curation.json") (by decide),
   by decide, by decide,
   (spec_c4_delta_mode_platform_and_curation_filter
      ⟨chars "alice", 5,
       chars "f00 msg\nA\tecephys_605238_2023-01-01_12-00-00/curation/curation.json\nA\tecephys_605238_2023-01-01_12-00-00/raw/data.bin"⟩).2
     (chars "A\tecephys_605238_2023-01-01_12-00-00/raw/data.bin")
     (chars "ecephys_605238_2023-01-01_12-00-00") (by decide) (by decide) (by decide)⟩

set_option maxRecDepth 20000 in
/-- Witness for C10: the returned path for a concrete commit line is the
status-stripped, root-folder-prefixed path. -/
theorem spec_c10_witness :
    (chars "ecephys_605238_2023-01-01_12-00-00/curation/curation.json" ∈
      (get_list_of_new_files_to_upload
        ⟨chars "bob", 7,
         chars "a11 msg\nM\tecephys_605238_2023-01-01_12-00-00/curation/curation.json"⟩).2.2) ∧
    (∃ line st ws root tail,
      line ∈ pySplitOn '\n'
        (chars "a11 msg\nM\tecephys_605238_2023-01-01_12-00-00/curation/curation.json") ∧
      (st = 'A' ∨ st = 'M') ∧ (∀ c ∈ ws, isPySpace c = true) ∧
      line = st :: (ws ++ chars "ecephys_605238_2023-01-01_12-00-00/curation/curation.json") ∧
      matchCommitPattern line = some root ∧
      chars "ecephys_605238_2023-01-01_12-00-00/curation/curation.json" =
        root ++ '/' :: tail) :=
  ⟨by decide,
   spec_c10_returned_paths_are_stripped_relative_paths
     ⟨chars "bob", 7,
      chars "a11 msg\nM\tecephys_605238_2023-01-01_12-00-00/curation/curation.json"⟩
     (chars "ecephys_605238_2023-01-01_12-00-00/curation/curation.json") (by decide)⟩

example :
    dataRegexRawMatch (chars "ecephys_605238_2023-01-01_12-00-00") =
      some (chars "ecephys", chars "605238") := by decide

example : dataRegexRawMatch (chars "not-matching") = none := by decide

example :
    dataRegexRawMatch (chars "behavior_12_34_2023-01-01_12-00-00") =
      some (chars "behavior", chars "12_34") := by decide

example : matchCommitPattern (chars "A\tecephys_605238/curation/c.json") =
    some (chars "ecephys_605238") := by decide

example : pyStem (chars "curation.json") = chars "curation" := by decide

example :
    pyReplace (chars "curation") (chars "curated") (chars "my_curation") =
      chars "my_curated" := by decide
